import Mathlib

/-!
Verification of the QA generation / difficulty-calibration pipeline and the
answer-evaluation / analytics engine of the lecture-QA system.

Text is modelled as `List Char` (Python `str`).  Python floats appearing in
the arithmetic (`0.4`, `0.5`, `0.3`, division, `int(...)` truncation) are
modelled exactly over `ℚ`; every concrete value exercised by the claims is
exactly representable, and the comparisons involved are far from any
floating-point rounding boundary.  External library behaviour (the LLM call,
`json.loads`, the pydantic constructor) is abstracted as explicit function
parameters.
-/

namespace QAVerify

/-- Python whitespace characters recognised by `str.strip`. -/
def pySpace (c : Char) : Bool :=
  c == ' ' || c == '\t' || c == '\n' || c == '\r' || c == '\x0b' || c == '\x0c'

/-- Python `str.strip()`: drop whitespace from both ends. -/
def strip (s : List Char) : List Char :=
  ((s.dropWhile pySpace).reverse.dropWhile pySpace).reverse

/-- ASCII lowercase of one character (Python `str.lower` on ASCII input). -/
def lowerChar (c : Char) : Char :=
  if 'A' ≤ c ∧ c ≤ 'Z' then Char.ofNat (c.toNat + 32) else c

/-- Python `str.lower()`. -/
def lower (s : List Char) : List Char := s.map lowerChar

/-- Python `needle in hay`: contiguous-substring test (empty needle matches). -/
def isSubstr (needle : List Char) : List Char → Bool
  | [] => needle.isEmpty
  | c :: t => needle.isPrefixOf (c :: t) || isSubstr needle t

/-- `s.startswith(c)` for a single character. -/
def startsWithChar (s : List Char) (c : Char) : Bool :=
  match s with
  | [] => false
  | x :: _ => x == c

/-- `s.endswith(c)` for a single character. -/
def endsWithChar (s : List Char) (c : Char) : Bool :=
  startsWithChar s.reverse c

/-- Helper for `str.find`: first index (counting from `i`) where `needle`
occurs in the remaining text. -/
def findSubAux (needle : List Char) : List Char → Nat → Option Nat
  | [], i => if needle.isEmpty then some i else none
  | c :: t, i =>
    if needle.isPrefixOf (c :: t) then some i else findSubAux needle t (i + 1)

/-- Python `hay.find(needle)`, with `none` for Python's `-1`. -/
def findSub (hay needle : List Char) : Option Nat := findSubAux needle hay 0

/-- Python `hay.find(needle, start)` (absolute index). -/
def findSubFrom (hay needle : List Char) (start : Nat) : Option Nat :=
  (findSub (hay.drop start) needle).map (· + start)

/-- Python slice `s[a:b]` for `a ≤ b`. -/
def slice (s : List Char) (a b : Nat) : List Char := (s.drop a).take (b - a)

/-! ## The JSON-extraction ladder (`QAGenerator._extract_json_from_response`)

The Python method is a sequence of four pattern blocks, each `return`ing on a
structural match and otherwise falling through to the next block.  The
fall-through continuations are `extractPat2/3/4`; the entry point
`extract_json_from_response` is pattern 1. -/

/-- The tagged-fence marker, Python literal `"```json"`. -/
def jsonFenceTag : List Char := "```json".toList

/-- The generic fence marker, Python literal `"```"`. -/
def fenceMark : List Char := "```".toList

/-- The balanced-brace scan of pattern 3: walking the text with a running
brace counter, return the index (relative to the scan start) of the `}` at
which the counter returns to zero. -/
def braceScan : List Char → Int → Option Nat
  | [], _ => none
  | c :: t, k =>
    if c == '{' then (braceScan t (k + 1)).map (· + 1)
    else if c == '}' then
      if k - 1 = 0 then some 0 else (braceScan t (k - 1)).map (· + 1)
    else (braceScan t k).map (· + 1)

/-- Pattern 4: use the whole stripped reply if it is brace-delimited. -/
def extractPat4 (s : List Char) : Option (List Char) :=
  let content := strip s
  if startsWithChar content '{' && endsWithChar content '}' then some content
  else none

/-- Pattern 3 block (falling through to pattern 4): from the first `{`,
balanced-brace matching. -/
def extractPat3 (s : List Char) : Option (List Char) :=
  match findSub s [Char.ofNat 123] with
  | none => extractPat4 s
  | some b =>
    match braceScan (s.drop b) 0 with
    | some i => some ((s.drop b).take (i + 1))
    | none => extractPat4 s

/-- Pattern 2 block (falling through to pattern 3): first generic fence pair
whose stripped interior is brace-delimited. -/
def extractPat2 (s : List Char) : Option (List Char) :=
  match findSub s fenceMark with
  | none => extractPat3 s
  | some idx =>
    match findSubFrom s fenceMark (idx + 3) with
    | none => extractPat3 s
    | some e =>
      let potential := strip (slice s (idx + 3) e)
      if startsWithChar potential '{' && endsWithChar potential '}' then
        some potential
      else extractPat3 s

/-- `QAGenerator._extract_json_from_response`: pattern 1 (tagged fence),
falling through to patterns 2, 3 and 4. -/
def extract_json_from_response (s : List Char) : Option (List Char) :=
  match findSub s jsonFenceTag with
  | none => extractPat2 s
  | some idx =>
    match findSubFrom s fenceMark (idx + 7) with
    | none => extractPat2 s
    | some e => some (strip (slice s (idx + 7) e))

/-! Stand-alone statements of the four extraction strategies, written from
the specification's ladder description; the ladder theorem compares the
source translation above against their priority cascade. -/

/-- Strategy 1: the stripped interior of a fence tagged as JSON. -/
def fencedTaggedStrategy (s : List Char) : Option (List Char) :=
  match findSub s jsonFenceTag with
  | none => none
  | some idx =>
    match findSubFrom s fenceMark (idx + 7) with
    | none => none
    | some e => some (strip (slice s (idx + 7) e))

/-- Strategy 2: the stripped interior of a (first) generic fence pair, when
that interior starts with `{` and ends with `}`. -/
def genericFenceStrategy (s : List Char) : Option (List Char) :=
  match findSub s fenceMark with
  | none => none
  | some idx =>
    match findSubFrom s fenceMark (idx + 3) with
    | none => none
    | some e =>
      let potential := strip (slice s (idx + 3) e)
      if startsWithChar potential '{' && endsWithChar potential '}' then
        some potential
      else none

/-- Strategy 3: the span from the first `{` to its balanced matching `}`. -/
def balancedBraceStrategy (s : List Char) : Option (List Char) :=
  match findSub s [Char.ofNat 123] with
  | none => none
  | some b => (braceScan (s.drop b) 0).map (fun i => (s.drop b).take (i + 1))

/-- Strategy 4: the whole stripped reply when it is brace-delimited. -/
def wholeReplyStrategy (s : List Char) : Option (List Char) :=
  extractPat4 s

theorem extractPat3_eq (s : List Char) :
    extractPat3 s = (balancedBraceStrategy s <|> extractPat4 s) := by
  unfold extractPat3 balancedBraceStrategy
  cases h : findSub s [Char.ofNat 123] with
  | none => simp
  | some b =>
    cases h2 : braceScan (s.drop b) 0 with
    | none => simp [h2]
    | some i => simp [h2]

theorem extractPat2_eq (s : List Char) :
    extractPat2 s = (genericFenceStrategy s <|> extractPat3 s) := by
  unfold extractPat2 genericFenceStrategy
  cases h : findSub s fenceMark with
  | none => simp
  | some idx =>
    cases h2 : findSubFrom s fenceMark (idx + 3) with
    | none => simp [h2]
    | some e =>
      simp only [h2]
      split
      · rfl
      · simp

theorem extract_eq_pat1 (s : List Char) :
    extract_json_from_response s = (fencedTaggedStrategy s <|> extractPat2 s) := by
  unfold extract_json_from_response fencedTaggedStrategy
  cases h : findSub s jsonFenceTag with
  | none => simp
  | some idx =>
    cases h2 : findSubFrom s fenceMark (idx + 7) with
    | none => simp [h2]
    | some e => simp [h2]

/-! ## Response parsing (`QAGenerator._parse_response`) and single-question
generation (`QAGenerator._generate_single_question`)

`json.loads` and the pydantic `GeneratedQuestion(**data)` constructor are
library code outside the repository; they enter the model as explicit
function parameters (`loads`, `construct`).  A decoded JSON document is the
inductive `Jval`; `_parse_response` only ever succeeds on an object payload
carrying the five required fields (any `TypeError` raised by the membership
test or item assignment on a non-object payload is absorbed by the
enclosing `except` into a parse failure, like every other failure mode). -/

/-- Decoded JSON documents. -/
inductive Jval where
  | str (s : List Char)
  | num (n : ℤ)
  | bool (b : Bool)
  | null
  | arr (elems : List Jval)
  | obj (fields : List (List Char × Jval))

/-- The five required fields checked by `_parse_response`. -/
def requiredFields : List (List Char) :=
  ["question".toList, "question_type".toList, "difficulty".toList,
    "correct_answer".toList, "explanation".toList]

/-- The `keywords` key. -/
def keywordsKey : List Char := "keywords".toList

/-- `key in fields` for an object payload. -/
def hasField (fields : List (List Char × Jval)) (key : List Char) : Bool :=
  fields.any (fun kv => kv.1 == key)

/-- The required-field check and `keywords` defaulting of `_parse_response`
(its behaviour after a successful `json.loads`). -/
def validateFields (data : Jval) : Option Jval :=
  match data with
  | .obj fields =>
    if requiredFields.all (fun f => hasField fields f) then
      if hasField fields keywordsKey then some (.obj fields)
      else some (.obj (fields ++ [(keywordsKey, .arr [])]))
    else none
  | _ => none

/-- `QAGenerator._parse_response`: extract a JSON span, decode it, check the
required fields, default `keywords`; `none` on any failure. -/
def parse_response (loads : List Char → Except Unit Jval) (s : List Char) :
    Option Jval :=
  match extract_json_from_response s with
  | none => none
  | some j =>
    match loads j with
    | .error _ => none
    | .ok data => validateFields data

/-- Python truthiness of a decoded JSON value (`if question_data:`). -/
def jtruthy : Jval → Bool
  | .str s => !s.isEmpty
  | .num n => n != 0
  | .bool b => b
  | .null => false
  | .arr es => !es.isEmpty
  | .obj fs => !fs.isEmpty

/-- `QAGenerator._generate_single_question`: the LLM invocation `llm` either
raises (`error`) or yields a reply; the reply is parsed; a truthy payload is
handed to the pydantic constructor `construct`, whose own failure is also
absorbed.  Every failure mode yields `none`. -/
def generate_single_question (Q : Type) (llm : Except Unit (List Char))
    (loads : List Char → Except Unit Jval) (construct : Jval → Except Unit Q) :
    Option Q :=
  match llm with
  | .error _ => none
  | .ok reply =>
    match parse_response loads reply with
    | none => none
    | some data =>
      if jtruthy data then
        match construct data with
        | .ok q => some q
        | .error _ => none
      else none

/-- The nested `for` loop of `generate_questions_for_slide`: iterate the
difficulty distribution in order; for each tier run `count` generation
attempts, appending only the successful ones.  `gen d i` is the outcome of
the `i`-th attempt at tier `d`. -/
def questionsLoop (Q D : Type) (gen : D → Nat → Option Q) :
    List (D × Nat) → List Q
  | [] => []
  | (d, c) :: rest => (List.range c).filterMap (gen d) ++ questionsLoop Q D gen rest

/-- C1: the extraction ladder tries its four strategies in the fixed priority
order tagged-fence, generic-fence, balanced-brace, whole-reply, returning at
the first structural match (so a later, looser strategy never preempts an
earlier one); on the nested-brace reply
`{"explanation": "use {x} notation", "a": 1}` it returns the full outer-brace
span; and when no strategy matches, extraction yields no payload and parsing
fails for that question. -/
theorem extraction_ladder_priority :
    (∀ s : List Char,
      extract_json_from_response s =
        (fencedTaggedStrategy s <|> genericFenceStrategy s <|>
          balancedBraceStrategy s <|> wholeReplyStrategy s)) ∧
    (∀ (s r : List Char), fencedTaggedStrategy s = some r →
      extract_json_from_response s = some r) ∧
    extract_json_from_response
        "Some text \x7b\"explanation\": \"use \x7bx\x7d notation\", \"a\": 1\x7d done".toList
      = some "\x7b\"explanation\": \"use \x7bx\x7d notation\", \"a\": 1\x7d".toList ∧
    (∀ (loads : List Char → Except Unit Jval) (s : List Char),
      extract_json_from_response s = none → parse_response loads s = none) := by
  refine ⟨fun s => ?_, fun s r h => ?_, by decide, fun loads s h => ?_⟩
  · rw [extract_eq_pat1, extractPat2_eq, extractPat3_eq]
    rfl
  · rw [extract_eq_pat1, h]
    rfl
  · unfold parse_response
    rw [h]

/-- Concrete instantiation of the hypothesis-bearing parts of the ladder
theorem: a tagged-fence reply is taken by strategy 1, and a reply with no
structural match parses to nothing. -/
theorem extraction_ladder_priority_witness :
    extract_json_from_response "```json\n\x7b\"a\": 1\x7d\n```".toList
        = some "\x7b\"a\": 1\x7d".toList ∧
    parse_response (fun _ => .error ()) "no payload here".toList = none :=
  ⟨extraction_ladder_priority.2.1 _ _ (by decide),
    extraction_ladder_priority.2.2.2 _ _ (by decide)⟩

/-- C7: single-question generation never escalates a failure: an LLM error, a
reply with no extractable payload, a payload the decoder rejects, and a
decoded object missing one of the five required fields each produce the empty
result `none`; a payload with the five fields but no `keywords` gets
`keywords` defaulted to the empty list instead of failing; and the
surrounding batch loop is the concatenation of the per-attempt results, so
failed units are simply skipped while every remaining requested question is
still attempted. -/
theorem single_question_failure_absorbed :
    (∀ (Q : Type) (loads : List Char → Except Unit Jval)
        (construct : Jval → Except Unit Q),
      generate_single_question Q (.error ()) loads construct = none) ∧
    (∀ (Q : Type) (reply : List Char) (loads : List Char → Except Unit Jval)
        (construct : Jval → Except Unit Q),
      extract_json_from_response reply = none →
      generate_single_question Q (.ok reply) loads construct = none) ∧
    (∀ (Q : Type) (reply j : List Char) (loads : List Char → Except Unit Jval)
        (construct : Jval → Except Unit Q),
      extract_json_from_response reply = some j → loads j = .error () →
      generate_single_question Q (.ok reply) loads construct = none) ∧
    (∀ (Q : Type) (reply j : List Char) (fields : List (List Char × Jval))
        (loads : List Char → Except Unit Jval) (construct : Jval → Except Unit Q),
      extract_json_from_response reply = some j → loads j = .ok (.obj fields) →
      (∃ f ∈ requiredFields, hasField fields f = false) →
      generate_single_question Q (.ok reply) loads construct = none) ∧
    (∀ fields : List (List Char × Jval),
      (∀ f ∈ requiredFields, hasField fields f = true) →
      hasField fields keywordsKey = false →
      validateFields (.obj fields) = some (.obj (fields ++ [(keywordsKey, .arr [])]))) ∧
    (∀ (Q D : Type) (gen : D → Nat → Option Q) (dist : List (D × Nat)),
      questionsLoop Q D gen dist =
        (dist.flatMap (fun dc => (List.range dc.2).map (fun i => (dc.1, i)))).filterMap
          (fun p => gen p.1 p.2)) := by
  refine ⟨fun Q loads construct => rfl, fun Q reply loads construct h => ?_,
    fun Q reply j loads construct hx hl => ?_,
    fun Q reply j fields loads construct hx hl hmiss => ?_,
    fun fields hall hkw => ?_, fun Q D gen dist => ?_⟩
  · simp [generate_single_question, parse_response, h]
  · simp [generate_single_question, parse_response, hx, hl]
  · obtain ⟨f, hf, hnot⟩ := hmiss
    have hfail : (requiredFields.all (fun f => hasField fields f)) = false := by
      rw [List.all_eq_false]
      exact ⟨f, hf, by simp [hnot]⟩
    simp [generate_single_question, parse_response, hx, hl, validateFields, hfail]
  · have hok : (requiredFields.all (fun f => hasField fields f)) = true := by
      rw [List.all_eq_true]
      exact hall
    simp [validateFields, hok, hkw]
  · induction dist with
    | nil => rfl
    | cons dc rest ih =>
      obtain ⟨d, c⟩ := dc
      simp only [questionsLoop, ih, List.flatMap_cons, List.filterMap_append,
        List.filterMap_map]
      rfl

/-- Concrete instantiation of the failure cases of the absorption theorem:
an unparseable reply, a decoder failure, a payload missing `question`, and
the `keywords` defaulting. -/
theorem single_question_failure_absorbed_witness :
    generate_single_question Unit (.ok "no payload here".toList)
        (fun _ => .error ()) (fun _ => .error ()) = none ∧
    generate_single_question Unit (.ok "\x7b\"a\": 1\x7d".toList)
        (fun _ => .error ()) (fun _ => .error ()) = none ∧
    generate_single_question Unit (.ok "\x7b\"a\": 1\x7d".toList)
        (fun _ => .ok (.obj [])) (fun _ => .error ()) = none ∧
    validateFields (.obj [("question".toList, .str []),
        ("question_type".toList, .str []), ("difficulty".toList, .str []),
        ("correct_answer".toList, .str []), ("explanation".toList, .str [])])
      = some (.obj [("question".toList, .str []),
        ("question_type".toList, .str []), ("difficulty".toList, .str []),
        ("correct_answer".toList, .str []), ("explanation".toList, .str []),
        (keywordsKey, .arr [])]) :=
  ⟨single_question_failure_absorbed.2.1 Unit _ _ _ (by decide),
    single_question_failure_absorbed.2.2.1 Unit _ ("\x7b\"a\": 1\x7d".toList) _ _
      (by decide) rfl,
    single_question_failure_absorbed.2.2.2.1 Unit _ ("\x7b\"a\": 1\x7d".toList) [] _ _
      (by decide) rfl
      ⟨"question".toList, by decide, by decide⟩,
    single_question_failure_absorbed.2.2.2.2.1 _ (by decide) (by decide)⟩

/-! ## Difficulty model (`DifficultyAdjuster`)

`calculate_difficulty_distribution` computes `int(total * ratio)` for the
easy and medium tiers and hands the whole remainder to hard; Python's
`int(...)` on a non-negative product truncates, i.e. takes the floor. -/

/-- The three difficulty tiers. -/
inductive DifficultyLevel where
  | easy
  | medium
  | hard
deriving DecidableEq

/-- A per-tier integer count (used both for target distributions and for the
allocator's remaining-count pool). -/
structure TierCounts where
  easy : ℤ
  medium : ℤ
  hard : ℤ
deriving DecidableEq

/-- `DifficultyAdjuster.calculate_difficulty_distribution` (the identical
inline computation also opens `QAGenerator.generate_comprehensive_qa`).  The
hard-tier ratio of the target dict is never read. -/
def calculate_difficulty_distribution (total : ℕ) (re rm rh : ℚ) : TierCounts :=
  let easy_count := ((total : ℚ) * re).floor
  let medium_count := ((total : ℚ) * rm).floor
  { easy := easy_count, medium := medium_count,
    hard := (total : ℤ) - easy_count - medium_count }

theorem ratFloor_eq_floor (q : ℚ) : q.floor = ⌊q⌋ := by
  rw [Rat.floor_def', Rat.floor_def]

/-- C3: for every `total ≥ 0` and ratio mapping over the three tiers with
non-negative entries summing to 1, the distribution takes
`floor(total * ratio)` for easy and medium, gives the entire remainder to
hard, and the three non-negative counts sum exactly to `total`. -/
theorem difficulty_distribution_exact (total : ℕ) (re rm rh : ℚ)
    (hre : 0 ≤ re) (hrm : 0 ≤ rm) (hrh : 0 ≤ rh) (hsum : re + rm + rh = 1) :
    (calculate_difficulty_distribution total re rm rh).easy = ⌊(total : ℚ) * re⌋ ∧
    (calculate_difficulty_distribution total re rm rh).medium = ⌊(total : ℚ) * rm⌋ ∧
    (calculate_difficulty_distribution total re rm rh).hard =
      (total : ℤ) - (calculate_difficulty_distribution total re rm rh).easy -
        (calculate_difficulty_distribution total re rm rh).medium ∧
    (calculate_difficulty_distribution total re rm rh).easy +
      (calculate_difficulty_distribution total re rm rh).medium +
      (calculate_difficulty_distribution total re rm rh).hard = (total : ℤ) ∧
    0 ≤ (calculate_difficulty_distribution total re rm rh).easy ∧
    0 ≤ (calculate_difficulty_distribution total re rm rh).medium ∧
    0 ≤ (calculate_difficulty_distribution total re rm rh).hard := by
  have ht : (0 : ℚ) ≤ (total : ℚ) := by positivity
  refine ⟨by simp [calculate_difficulty_distribution, ratFloor_eq_floor],
    by simp [calculate_difficulty_distribution, ratFloor_eq_floor],
    by simp [calculate_difficulty_distribution], by
    simp [calculate_difficulty_distribution], ?_, ?_, ?_⟩
  · show 0 ≤ ((total : ℚ) * re).floor
    rw [ratFloor_eq_floor]
    exact Int.floor_nonneg.mpr (mul_nonneg ht hre)
  · show 0 ≤ ((total : ℚ) * rm).floor
    rw [ratFloor_eq_floor]
    exact Int.floor_nonneg.mpr (mul_nonneg ht hrm)
  · show 0 ≤ (total : ℤ) - ((total : ℚ) * re).floor - ((total : ℚ) * rm).floor
    rw [ratFloor_eq_floor, ratFloor_eq_floor]
    have h1 : (⌊(total : ℚ) * re⌋ : ℚ) ≤ (total : ℚ) * re := Int.floor_le _
    have h2 : (⌊(total : ℚ) * rm⌋ : ℚ) ≤ (total : ℚ) * rm := Int.floor_le _
    have h3 : (0 : ℚ) ≤ (total : ℚ) * rh := mul_nonneg ht hrh
    have h4 : ((⌊(total : ℚ) * re⌋ + ⌊(total : ℚ) * rm⌋ : ℤ) : ℚ) ≤ (total : ℚ) := by
      push_cast
      nlinarith
    have h5 : (⌊(total : ℚ) * re⌋ + ⌊(total : ℚ) * rm⌋ : ℤ) ≤ (total : ℤ) := by
      exact_mod_cast h4
    omega

/-- The distribution theorem at `total = 6` with the default 0.4/0.4/0.2
ratio: the counts sum to 6. -/
theorem difficulty_distribution_exact_witness :
    (calculate_difficulty_distribution 6 (2/5) (2/5) (1/5)).easy +
      (calculate_difficulty_distribution 6 (2/5) (2/5) (1/5)).medium +
      (calculate_difficulty_distribution 6 (2/5) (2/5) (1/5)).hard = (6 : ℤ) :=
  (difficulty_distribution_exact 6 (2/5) (2/5) (1/5) (by norm_num) (by norm_num)
    (by norm_num) (by norm_num)).2.2.2.1

/-- `DifficultyAdjuster._calculate_balance_score`: mean absolute deviation of
the observed tier ratios from the ideal 0.4/0.4/0.2, scaled and clamped. -/
def calculate_balance_score (re rm rh : ℚ) : ℚ :=
  let differences : List ℚ := [|re - 0.4|, |rm - 0.4|, |rh - 0.2|]
  let avg_difference := differences.sum / (differences.length : ℚ)
  max 0 (1 - avg_difference * 2)

/-- The report assembled by `DifficultyAdjuster.validate_difficulty_balance`. -/
structure BalanceReport where
  total_questions : ℕ
  easy_count : ℕ
  medium_count : ℕ
  hard_count : ℕ
  easy_ratio : ℚ
  medium_ratio : ℚ
  hard_ratio : ℚ
  balance_score : ℚ
  is_balanced : Bool
deriving DecidableEq

/-- `DifficultyAdjuster.validate_difficulty_balance` on the difficulty tags
of the generated questions. -/
def validate_difficulty_balance (qs : List DifficultyLevel) : BalanceReport :=
  let total := qs.length
  let ce := qs.count .easy
  let cm := qs.count .medium
  let ch := qs.count .hard
  let re : ℚ := if 0 < total then (ce : ℚ) / (total : ℚ) else 0
  let rm : ℚ := if 0 < total then (cm : ℚ) / (total : ℚ) else 0
  let rh : ℚ := if 0 < total then (ch : ℚ) / (total : ℚ) else 0
  let score := calculate_balance_score re rm rh
  { total_questions := total, easy_count := ce, medium_count := cm,
    hard_count := ch, easy_ratio := re, medium_ratio := rm, hard_ratio := rh,
    balance_score := score, is_balanced := decide (score ≥ 0.7) }

/-- Mean absolute deviation from the ideal ratios, written from the
specification's description of the balance score. -/
def meanAbsDeviation (re rm rh : ℚ) : ℚ :=
  (|re - 0.4| + |rm - 0.4| + |rh - 0.2|) / 3

theorem count_levels_eq_length (qs : List DifficultyLevel) :
    qs.count .easy + qs.count .medium + qs.count .hard = qs.length := by
  induction qs with
  | nil => rfl
  | cons a t ih =>
    cases a <;> simp [List.count_cons, ih] <;> omega

/-- C9: the balance score equals `max 0 (1 - 2 * mean absolute deviation)`
from the ideal 0.4/0.4/0.2 ratios; it lies in `[0, 1]`; the exact ideal
ratios score `1`; a non-empty question set with no hard-tier questions
(whose observed ratios sum to 1 and give the hard tier ratio 0) scores
strictly below `1`; and a set is reported balanced iff its score is at
least `0.7`. -/
theorem balance_score_properties :
    (∀ re rm rh : ℚ,
      calculate_balance_score re rm rh = max 0 (1 - 2 * meanAbsDeviation re rm rh)) ∧
    (∀ re rm rh : ℚ, 0 ≤ calculate_balance_score re rm rh ∧
      calculate_balance_score re rm rh ≤ 1) ∧
    calculate_balance_score 0.4 0.4 0.2 = 1 ∧
    (∀ qs : List DifficultyLevel, qs ≠ [] → qs.count .hard = 0 →
      (validate_difficulty_balance qs).easy_ratio +
          (validate_difficulty_balance qs).medium_ratio +
          (validate_difficulty_balance qs).hard_ratio = 1 ∧
        (validate_difficulty_balance qs).hard_ratio = 0 ∧
        (validate_difficulty_balance qs).balance_score < 1) ∧
    (∀ qs : List DifficultyLevel,
      (validate_difficulty_balance qs).is_balanced = true ↔
        0.7 ≤ (validate_difficulty_balance qs).balance_score) := by
  refine ⟨fun re rm rh => ?_, fun re rm rh => ⟨le_max_left _ _, ?_⟩, by norm_num
    [calculate_balance_score], fun qs hne hhard => ?_, fun qs => ?_⟩
  · unfold calculate_balance_score meanAbsDeviation
    simp only [List.sum_cons, List.sum_nil, List.length_cons, List.length_nil]
    norm_num
    ring_nf
  · unfold calculate_balance_score
    simp only [List.sum_cons, List.sum_nil, List.length_cons, List.length_nil]
    have h1 : 0 ≤ |re - 0.4| := abs_nonneg _
    have h2 : 0 ≤ |rm - 0.4| := abs_nonneg _
    have h3 : 0 ≤ |rh - 0.2| := abs_nonneg _
    rw [max_le_iff]
    constructor <;> [norm_num; nlinarith]
  · have htot : 0 < qs.length := List.length_pos.mpr hne
    have hsum := count_levels_eq_length qs
    constructor
    · unfold validate_difficulty_balance
      simp only [htot, if_pos]
      have hlen : ((qs.length : ℚ)) ≠ 0 := by positivity
      rw [div_add_div_same, div_add_div_same, div_eq_iff hlen, one_mul]
      exact_mod_cast hsum
    constructor
    · unfold validate_difficulty_balance
      simp [htot, hhard]
    · unfold validate_difficulty_balance calculate_balance_score
      simp only [htot, if_pos, hhard, Nat.cast_zero, zero_div]
      simp only [List.sum_cons, List.sum_nil, List.length_cons, List.length_nil]
      rw [max_lt_iff]
      refine ⟨by norm_num, ?_⟩
      have h1 : 0 ≤ |(qs.count DifficultyLevel.easy : ℚ) / (qs.length : ℚ) - 0.4| :=
        abs_nonneg _
      have h2 : 0 ≤ |(qs.count DifficultyLevel.medium : ℚ) / (qs.length : ℚ) - 0.4| :=
        abs_nonneg _
      have h3 : |(0 : ℚ) - 0.2| = 0.2 := by norm_num
      rw [h3]
      nlinarith
  · unfold validate_difficulty_balance
    simp [ge_iff_le]

/-- The zero-hard part of the balance theorem at a concrete question set
`[easy, easy, medium]`: its score is strictly below 1. -/
theorem balance_score_properties_witness :
    (validate_difficulty_balance [.easy, .easy, .medium]).balance_score < 1 :=
  (balance_score_properties.2.2.2.1 [.easy, .easy, .medium] (by decide)
    (by decide)).2.2

/-! ## Batch allocation (`generate_comprehensive_qa` and
`_distribute_difficulty_for_slide`)

Per slide, the allocator draws questions from the shared remaining-tier-count
pool: iterating tiers in the fixed order easy, medium, hard, it allocates
`min(1, available, questions_count)` when both the tier's remaining count and
the slide's still-needed count are positive, and nothing otherwise, mutating
both as it goes. -/

/-- A slide-content record as produced by the extractor. -/
structure SlideContent where
  slide_number : ℕ
  title : List Char
  content : List Char
  bullet_points : List (List Char)
  full_text : List Char
deriving DecidableEq

/-- `QAGenerator._has_sufficient_content`: full text or content of length at
least 50, or at least 2 bullet points. -/
def has_sufficient_content (s : SlideContent) : Bool :=
  decide (50 ≤ s.full_text.length) || decide (50 ≤ s.content.length) ||
    decide (2 ≤ s.bullet_points.length)

/-- One tier's allocation inside `_distribute_difficulty_for_slide`:
`min(1, available, questions_count)` when both are positive, else nothing. -/
def allocTier (available questions_count : ℤ) : ℤ :=
  if 0 < available ∧ 0 < questions_count then
    min 1 (min available questions_count)
  else 0

/-- `QAGenerator._distribute_difficulty_for_slide`: returns the per-slide
distribution and the updated remaining pool. -/
def distribute_difficulty_for_slide (questions_count : ℤ) (pool : TierCounts) :
    TierCounts × TierCounts :=
  let aE := allocTier pool.easy questions_count
  let qc1 := questions_count - aE
  let aM := allocTier pool.medium qc1
  let qc2 := qc1 - aM
  let aH := allocTier pool.hard qc2
  (⟨aE, aM, aH⟩,
    ⟨pool.easy - aE, pool.medium - aM, pool.hard - aH⟩)

/-- The allocation loop of `generate_comprehensive_qa`: one step per valid
slide, threading the shared pool; each step records the slide's distribution
and the pool state after the step. -/
def allocSteps : List ℤ → TierCounts → List (TierCounts × TierCounts)
  | [], _ => []
  | qc :: rest, pool =>
    let step := distribute_difficulty_for_slide qc pool
    step :: allocSteps rest step.2

/-- The per-slide question counts of `generate_comprehensive_qa`:
`total // n` per slide plus one extra for each of the first `total % n`
slides. -/
def slide_question_counts (total n : ℕ) : List ℤ :=
  (List.range n).map
    (fun i => ((total / n : ℕ) : ℤ) + (if i < total % n then 1 else 0))

/-- The allocation part of `QAGenerator.generate_comprehensive_qa`: filter
slides through the content gate, compute the tier pool from the ratio
(`int(total*ratio)` for easy and medium, remainder to hard — the same
computation as `calculate_difficulty_distribution`), and run the per-slide
allocation loop. -/
def generate_comprehensive_qa_alloc (slides : List SlideContent) (total : ℕ)
    (re rm rh : ℚ) : List (SlideContent × TierCounts) :=
  let valid_slides := slides.filter has_sufficient_content
  if valid_slides.isEmpty then []
  else
    valid_slides.zip
      ((allocSteps (slide_question_counts total valid_slides.length)
        (calculate_difficulty_distribution total re rm rh)).map (·.1))

/-- A per-slide question set. -/
structure QASet (Q : Type) where
  slide_number : ℕ
  slide_title : List Char
  questions : List Q
deriving DecidableEq

/-- `QAGenerator.generate_comprehensive_qa` composed with
`generate_questions_for_slide`: each allocated slide yields a `QASet` whose
questions are the successful generation attempts over its distribution, the
dict iterated in insertion order easy, medium, hard. -/
def generate_comprehensive_qa (Q : Type)
    (gen : SlideContent → DifficultyLevel → Nat → Option Q)
    (slides : List SlideContent) (total : ℕ) (re rm rh : ℚ) : List (QASet Q) :=
  (generate_comprehensive_qa_alloc slides total re rm rh).map (fun sd =>
    { slide_number := sd.1.slide_number, slide_title := sd.1.title,
      questions := questionsLoop Q DifficultyLevel (gen sd.1)
        [(.easy, sd.2.easy.toNat), (.medium, sd.2.medium.toNat),
          (.hard, sd.2.hard.toNat)] })

/-- An eligible test slide: 50 characters of full text. -/
def eligibleSlide (n : ℕ) : SlideContent :=
  ⟨n, [], [], [], List.replicate 50 'a'⟩

/-- An ineligible test slide: no content at all. -/
def emptySlide (n : ℕ) : SlideContent := ⟨n, [], [], [], []⟩

/-- The C2 scenario: four slides, the second of which fails the content
gate. -/
def fourSlides : List SlideContent :=
  [eligibleSlide 1, emptySlide 4, eligibleSlide 2, eligibleSlide 3]

unseal Rat.add Rat.mul Rat.inv Rat.sub Rat.ofScientific in
/-- C2 counterexample: in the 3-eligible-slides scenario with 6 requested
questions and the default 0.4/0.4/0.2 ratio, the hard-tier generation
attempts allocated across all slides total 1, not the 2 the claim states. -/
theorem comprehensive_qa_hard_tier_counterexample :
    ((generate_comprehensive_qa_alloc fourSlides 6 (2/5) (2/5) (1/5)).map
        (fun sd => sd.2.hard)).sum = 1 ∧ (1 : ℤ) ≠ 2 := by
  decide

unseal Rat.add Rat.mul Rat.inv Rat.sub Rat.ofScientific in
/-- C2 amended: the run produces QuestionSets exactly for the 3 eligible
slides in input order, but the per-tier attempt counts combine to
{easy: 2, medium: 2, hard: 1} — 5 attempts, not 6 — because each slide draws
at most one question per tier and the last slide can absorb only one of the
two pooled hard questions; with every attempt succeeding the per-slide
question counts are 2, 2 and 1. -/
theorem comprehensive_qa_end_to_end :
    (generate_comprehensive_qa_alloc fourSlides 6 (2/5) (2/5) (1/5)).map Prod.fst
        = [eligibleSlide 1, eligibleSlide 2, eligibleSlide 3] ∧
    ((generate_comprehensive_qa_alloc fourSlides 6 (2/5) (2/5) (1/5)).map
        (fun sd => sd.2.easy)).sum = 2 ∧
    ((generate_comprehensive_qa_alloc fourSlides 6 (2/5) (2/5) (1/5)).map
        (fun sd => sd.2.medium)).sum = 2 ∧
    ((generate_comprehensive_qa_alloc fourSlides 6 (2/5) (2/5) (1/5)).map
        (fun sd => sd.2.hard)).sum = 1 ∧
    (generate_comprehensive_qa Unit (fun _ _ _ => some ()) fourSlides 6 (2/5) (2/5)
        (1/5)).map (fun q => (q.slide_number, q.questions.length))
      = [(1, 2), (2, 2), (3, 1)] := by
  refine ⟨by decide, by decide, by decide, by decide, by decide⟩

/-- Componentwise non-negativity of a tier pool. -/
def poolNonneg (p : TierCounts) : Prop := 0 ≤ p.easy ∧ 0 ≤ p.medium ∧ 0 ≤ p.hard

theorem allocTier_eq_min (a qc : ℤ) (ha : 0 ≤ a) (hq : 0 ≤ qc) :
    allocTier a qc = min 1 (min a qc) := by
  unfold allocTier
  split
  · rfl
  · rename_i h
    omega

theorem allocTier_nonneg (a qc : ℤ) (ha : 0 ≤ a) : 0 ≤ allocTier a qc := by
  unfold allocTier
  split <;> omega

theorem allocTier_le_avail (a qc : ℤ) (ha : 0 ≤ a) : allocTier a qc ≤ a := by
  unfold allocTier
  split <;> omega

theorem allocTier_le_qc (a qc : ℤ) (hq : 0 ≤ qc) : allocTier a qc ≤ qc := by
  unfold allocTier
  split <;> omega

theorem distribute_pool_update (qc : ℤ) (p : TierCounts) :
    (distribute_difficulty_for_slide qc p).2.easy =
        p.easy - (distribute_difficulty_for_slide qc p).1.easy ∧
    (distribute_difficulty_for_slide qc p).2.medium =
        p.medium - (distribute_difficulty_for_slide qc p).1.medium ∧
    (distribute_difficulty_for_slide qc p).2.hard =
        p.hard - (distribute_difficulty_for_slide qc p).1.hard :=
  ⟨rfl, rfl, rfl⟩

theorem distribute_pool_nonneg (qc : ℤ) (p : TierCounts) (hp : poolNonneg p) :
    poolNonneg (distribute_difficulty_for_slide qc p).2 := by
  obtain ⟨h1, h2, h3⟩ := hp
  refine ⟨?_, ?_, ?_⟩ <;>
    simp only [distribute_difficulty_for_slide, sub_nonneg] <;>
    exact allocTier_le_avail _ _ (by assumption)

theorem distribute_draw_nonneg (qc : ℤ) (p : TierCounts) (hp : poolNonneg p) :
    0 ≤ (distribute_difficulty_for_slide qc p).1.easy ∧
    0 ≤ (distribute_difficulty_for_slide qc p).1.medium ∧
    0 ≤ (distribute_difficulty_for_slide qc p).1.hard := by
  obtain ⟨h1, h2, h3⟩ := hp
  exact ⟨allocTier_nonneg _ _ h1, allocTier_nonneg _ _ h2, allocTier_nonneg _ _ h3⟩

theorem allocSteps_invariant (qcs : List ℤ) (p : TierCounts) (hp : poolNonneg p) :
    (∀ x ∈ allocSteps qcs p, poolNonneg x.2) ∧
    ((allocSteps qcs p).map (fun x => x.1.easy)).sum ≤ p.easy ∧
    ((allocSteps qcs p).map (fun x => x.1.medium)).sum ≤ p.medium ∧
    ((allocSteps qcs p).map (fun x => x.1.hard)).sum ≤ p.hard := by
  induction qcs generalizing p with
  | nil =>
    obtain ⟨h1, h2, h3⟩ := hp
    exact ⟨by simp [allocSteps], by simpa [allocSteps], by simpa [allocSteps],
      by simpa [allocSteps]⟩
  | cons qc rest ih =>
    have hstep := distribute_pool_nonneg qc p hp
    obtain ⟨ihmem, ihe, ihm, ihh⟩ := ih (distribute_difficulty_for_slide qc p).2 hstep
    obtain ⟨hue, hum, huh⟩ := distribute_pool_update qc p
    refine ⟨?_, ?_, ?_, ?_⟩
    · intro x hx
      simp only [allocSteps, List.mem_cons] at hx
      rcases hx with h | h
      · rw [h]
        exact hstep
      · exact ihmem x h
    · simp only [allocSteps, List.map_cons, List.sum_cons]
      omega
    · simp only [allocSteps, List.map_cons, List.sum_cons]
      omega
    · simp only [allocSteps, List.map_cons, List.sum_cons]
      omega

/-- C8: during a comprehensive-generation run, each per-slide step draws
`min(1, remaining_for_tier, still_needed_for_slide)` from each tier in the
fixed order easy, medium, hard (the still-needed count shrinking as the
earlier tiers of the same step allocate); from a non-negative pool every
remaining-tier count stays non-negative after every step; and each tier's
total allocation across all slides never exceeds its initial pool count. -/
theorem allocation_pool_invariant :
    (∀ (qc : ℤ) (p : TierCounts), 0 ≤ qc → poolNonneg p →
      (distribute_difficulty_for_slide qc p).1.easy = min 1 (min p.easy qc) ∧
      (distribute_difficulty_for_slide qc p).1.medium =
        min 1 (min p.medium (qc - (distribute_difficulty_for_slide qc p).1.easy)) ∧
      (distribute_difficulty_for_slide qc p).1.hard =
        min 1 (min p.hard (qc - (distribute_difficulty_for_slide qc p).1.easy -
          (distribute_difficulty_for_slide qc p).1.medium))) ∧
    (∀ (qcs : List ℤ) (p : TierCounts), poolNonneg p →
      ∀ x ∈ allocSteps qcs p, poolNonneg x.2) ∧
    (∀ (qcs : List ℤ) (p : TierCounts), poolNonneg p →
      ((allocSteps qcs p).map (fun x => x.1.easy)).sum ≤ p.easy ∧
      ((allocSteps qcs p).map (fun x => x.1.medium)).sum ≤ p.medium ∧
      ((allocSteps qcs p).map (fun x => x.1.hard)).sum ≤ p.hard) := by
  refine ⟨fun qc p hq hp => ?_, fun qcs p hp => (allocSteps_invariant qcs p hp).1,
    fun qcs p hp => (allocSteps_invariant qcs p hp).2⟩
  obtain ⟨h1, h2, h3⟩ := hp
  have he : (distribute_difficulty_for_slide qc p).1.easy = allocTier p.easy qc := rfl
  have hqe : 0 ≤ qc - allocTier p.easy qc :=
    sub_nonneg.mpr (allocTier_le_qc _ _ hq)
  have hm : (distribute_difficulty_for_slide qc p).1.medium =
      allocTier p.medium (qc - allocTier p.easy qc) := rfl
  have hqm : 0 ≤ qc - allocTier p.easy qc -
      allocTier p.medium (qc - allocTier p.easy qc) :=
    sub_nonneg.mpr (allocTier_le_qc _ _ hqe)
  refine ⟨?_, ?_, ?_⟩
  · rw [he, allocTier_eq_min _ _ h1 hq]
  · rw [hm, he, allocTier_eq_min _ _ h2 hqe]
  · show allocTier p.hard (qc - allocTier p.easy qc -
        allocTier p.medium (qc - allocTier p.easy qc)) = _
    rw [he, hm, allocTier_eq_min _ _ h3 hqm]

/-- The pool invariant at a concrete run: three slides needing 2 questions
each against the pool {easy: 2, medium: 2, hard: 2}: no tier's total
allocation exceeds its initial count. -/
theorem allocation_pool_invariant_witness :
    ((allocSteps [2, 2, 2] ⟨2, 2, 2⟩).map (fun x => x.1.hard)).sum ≤ (2 : ℤ) :=
  (allocation_pool_invariant.2.2 [2, 2, 2] ⟨2, 2, 2⟩
    ⟨by norm_num, by norm_num, by norm_num⟩).2.2

/-! ## Answer evaluation (`questions._evaluate_answer`, `submit_answer`,
`_update_correct_rate`)

A stored question enters evaluation through its type, correct answer and
keywords column (a JSON column that may be null, hence `Option`; the Python
truthiness test `if question.keywords:` is false both for null and for an
empty list). -/

/-- The four persisted question types. -/
inductive QuestionType where
  | multiple_choice
  | single_choice
  | essay
  | short_answer
deriving DecidableEq

/-- The slice of a stored `Question` that `_evaluate_answer` reads. -/
structure Question where
  question_type : QuestionType
  correct_answer : List Char
  keywords : Option (List (List Char))
deriving DecidableEq

/-- `Question.get_keywords_list`: the keywords list, `[]` when null. -/
def get_keywords_list (q : Question) : List (List Char) := q.keywords.getD []

/-- Python truthiness of the `keywords` column. -/
def keywordsTruthy (q : Question) : Bool :=
  match q.keywords with
  | some (_ :: _) => true
  | _ => false

/-- The number of keywords occurring as substrings of the student answer. -/
def matchCount (kws : List (List Char)) (student_answer : List Char) : ℕ :=
  (kws.filter (fun kw => isSubstr kw student_answer)).length

/-- `questions._evaluate_answer`. -/
def evaluate_answer (q : Question) (response_text : List Char) : Bool :=
  match q.question_type with
  | .multiple_choice | .single_choice =>
    lower (strip response_text) == lower (strip q.correct_answer)
  | .short_answer =>
    let correct_answer := lower (strip q.correct_answer)
    let student_answer := lower (strip response_text)
    if keywordsTruthy q then
      let kws := (get_keywords_list q).map lower
      decide ((matchCount kws student_answer : ℚ) ≥ (kws.length : ℚ) * 0.5)
    else
      isSubstr correct_answer student_answer || isSubstr student_answer correct_answer
  | .essay =>
    if keywordsTruthy q then
      let kws := (get_keywords_list q).map lower
      let student_answer := lower (strip response_text)
      decide ((matchCount kws student_answer : ℚ) ≥ max 1 ((kws.length : ℚ) * 0.3))
    else
      decide (50 ≤ (strip response_text).length)

/-- `questions._update_correct_rate`: over the responses with known
correctness, store `int((correct/total) * 100)`; no update when none are
known. -/
def update_correct_rate (responses : List (Option Bool)) : Option ℤ :=
  let known := responses.filter (fun r => r.isSome)
  if known.isEmpty then none
  else
    let correct_count := (known.filter (fun r => r == some true)).length
    some ((((correct_count : ℚ) / (known.length : ℚ)) * 100).floor)

/-- The `submit_answer` flow: evaluate, score 100 or 0, and recompute the
question's correct rate.  The session is created with `autoflush=False`
(`base.py`), so the query inside `_update_correct_rate` does not see the
pending, unflushed new response: the rate is recomputed over the previously
persisted responses `prev` only, and a first submission (empty `prev`)
updates nothing. -/
def submit_answer (q : Question) (prev : List (Option Bool)) (r : List Char) :
    ℚ × Option ℤ :=
  let is_correct := evaluate_answer q r
  let score : ℚ := if is_correct then 100 else 0
  (score, update_correct_rate prev)

/-- The per-type evaluation policy, written from the claim's wording. -/
def answerPolicy (q : Question) (r : List Char) : Prop :=
  match q.question_type with
  | .multiple_choice | .single_choice =>
    lower (strip r) = lower (strip q.correct_answer)
  | .short_answer =>
    if get_keywords_list q ≠ [] then
      (matchCount ((get_keywords_list q).map lower) (lower (strip r)) : ℚ) ≥
        ((get_keywords_list q).length : ℚ) * 0.5
    else
      isSubstr (lower (strip q.correct_answer)) (lower (strip r)) = true ∨
        isSubstr (lower (strip r)) (lower (strip q.correct_answer)) = true
  | .essay =>
    if get_keywords_list q ≠ [] then
      (matchCount ((get_keywords_list q).map lower) (lower (strip r)) : ℚ) ≥
        max 1 (((get_keywords_list q).length : ℚ) * 0.3)
    else
      50 ≤ (strip r).length

unseal Rat.add Rat.mul Rat.inv Rat.sub Rat.ofScientific in
/-- C4: the evaluator decides correctness exactly by the per-type policy —
trimmed case-insensitive equality for choice questions (so " Paris " matches
"paris"), the ≥ 50% keyword threshold under real comparison for short answers
with keywords (1 of 2 passes, 1 of 3 fails), mutual-substring fallback
without keywords, the ≥ max(1, 30%) threshold for essays with keywords and
the 50-character length proxy without — and the submitted score is 100 for a
correct response and 0 otherwise. -/
theorem answer_evaluator_policy :
    (∀ (q : Question) (r : List Char),
      evaluate_answer q r = true ↔ answerPolicy q r) ∧
    (∀ (q : Question) (prev : List (Option Bool)) (r : List Char),
      (evaluate_answer q r = true → (submit_answer q prev r).1 = 100) ∧
      (evaluate_answer q r = false → (submit_answer q prev r).1 = 0)) ∧
    evaluate_answer ⟨.multiple_choice, "paris".toList, none⟩ " Paris ".toList
      = true ∧
    evaluate_answer ⟨.short_answer, "x".toList,
        some ["mitochondria".toList, "energy".toList]⟩
      "the mitochondria is the powerhouse".toList = true ∧
    evaluate_answer ⟨.short_answer, "x".toList,
        some ["mitochondria".toList, "energy".toList, "atp".toList]⟩
      "the mitochondria is the powerhouse".toList = false := by
  refine ⟨fun q r => ?_, fun q prev r => ⟨fun h => ?_, fun h => ?_⟩,
    by decide, by decide, by decide⟩
  · obtain ⟨qt, ca, kw⟩ := q
    cases qt <;>
      rcases kw with _ | ⟨_ | ⟨k, ks⟩⟩ <;>
        simp [evaluate_answer, answerPolicy, keywordsTruthy, get_keywords_list,
          decide_eq_true_iff, Bool.or_eq_true, List.length_map]
  · simp [submit_answer, h]
  · simp [submit_answer, h]

unseal Rat.add Rat.mul Rat.inv Rat.sub Rat.ofScientific in
/-- The evaluator policy theorem applied at concrete inputs: a correct choice
answer scores 100 (through the policy's string equality) and an incorrect one
scores 0. -/
theorem answer_evaluator_policy_witness :
    evaluate_answer ⟨.multiple_choice, "paris".toList, none⟩ " Paris ".toList
        = true ∧
    (submit_answer ⟨.multiple_choice, "paris".toList, none⟩ [] " Paris ".toList).1
        = 100 ∧
    (submit_answer ⟨.multiple_choice, "paris".toList, none⟩ [] "rome".toList).1
        = 0 :=
  ⟨(answer_evaluator_policy.1 ⟨.multiple_choice, "paris".toList, none⟩
      " Paris ".toList).mpr
      (show lower (strip " Paris ".toList) = lower (strip "paris".toList) by decide),
    (answer_evaluator_policy.2.1 ⟨.multiple_choice, "paris".toList, none⟩ []
      " Paris ".toList).1 (by decide),
    (answer_evaluator_policy.2.1 ⟨.multiple_choice, "paris".toList, none⟩ []
      "rome".toList).2 (by decide)⟩

theorem isSubstr_nil_left (hay : List Char) : isSubstr [] hay = true := by
  cases hay <;> simp [isSubstr]

/-- C10: a short-answer question with no keywords and a correct answer that
trims to the empty string marks every response correct — the empty string is
a substring of every response in the fallback check — and therefore scores
100, whatever the response (including the empty one). -/
theorem empty_correct_answer_always_correct (q : Question)
    (prev : List (Option Bool)) (r : List Char)
    (htype : q.question_type = .short_answer)
    (hkw : q.keywords = none ∨ q.keywords = some [])
    (hca : strip q.correct_answer = []) :
    evaluate_answer q r = true ∧ (submit_answer q prev r).1 = 100 := by
  have hkt : keywordsTruthy q = false := by
    rcases hkw with h | h <;> simp [keywordsTruthy, h]
  have heval : evaluate_answer q r = true := by
    unfold evaluate_answer
    rw [htype]
    simp only [hkt, if_false, Bool.false_eq_true]
    rw [hca]
    simp [lower, isSubstr_nil_left]
  exact ⟨heval, by simp [submit_answer, heval]⟩

/-- The vacuous-correctness theorem at a concrete question and the empty
response. -/
theorem empty_correct_answer_always_correct_witness :
    evaluate_answer ⟨.short_answer, "   ".toList, none⟩ [] = true ∧
    (submit_answer ⟨.short_answer, "   ".toList, none⟩ [] []).1 = 100 :=
  empty_correct_answer_always_correct ⟨.short_answer, "   ".toList, none⟩ [] []
    rfl (Or.inl rfl) (by decide)

unseal Rat.add Rat.mul Rat.inv Rat.sub Rat.ofScientific in
/-- C5 counterexample: the rate query over 3 known responses with 2 correct
stores `int((2/3)*100) = 66`, not `round(100*2/3) = 67` — the code truncates
instead of rounding; and a first submission stores no rate at all — with
`autoflush=False` the query cannot see the pending new response, so the rate
is not recomputed over a response set that includes it. -/
theorem correct_rate_rounding_counterexample :
    update_correct_rate [some true, some true, some false] = some 66 ∧
    round ((100 : ℚ) * 2 / 3) = 67 ∧ (66 : ℤ) ≠ 67 ∧
    (submit_answer ⟨.multiple_choice, "a".toList, none⟩ [] "a".toList).2 = none := by
  refine ⟨by decide, by decide, by decide, by decide⟩

unseal Rat.add Rat.mul Rat.inv Rat.sub Rat.ofScientific in
/-- C5 amended: each submission recomputes the rate as
`floor(100 * correct_count / total_count)` (Python `int(...)` truncation of a
non-negative quotient, not rounding) over the question's *previously
persisted* responses with known correctness — the `autoflush=False` session
hides the pending new response from the query, so a first submission stores
no rate and the stored rate lags one submission behind; a query over 3 known
responses with 2 correct stores 66. -/
theorem correct_rate_truncation :
    (∀ responses : List (Option Bool),
      responses.filter (fun r => r.isSome) ≠ [] →
      update_correct_rate responses =
        some ⌊(100 * (((responses.filter (fun r => r.isSome)).filter
            (fun r => r == some true)).length : ℚ)) /
          ((responses.filter (fun r => r.isSome)).length : ℚ)⌋) ∧
    (∀ (q : Question) (prev : List (Option Bool)) (r : List Char),
      (submit_answer q prev r).2 = update_correct_rate prev) ∧
    (∀ (q : Question) (r : List Char), (submit_answer q [] r).2 = none) ∧
    update_correct_rate [some true, some true, some false] = some 66 := by
  refine ⟨fun responses h => ?_, fun q prev r => rfl, fun q r => rfl, by decide⟩
  unfold update_correct_rate
  rw [if_neg (by simpa [List.isEmpty_iff] using h)]
  simp only [ratFloor_eq_floor]
  congr 2
  ring

unseal Rat.add Rat.mul Rat.inv Rat.sub Rat.ofScientific in
/-- The truncation theorem at a concrete response list: 1 correct of 2 known
stores the truncated rate 50. -/
theorem correct_rate_truncation_witness :
    update_correct_rate [some true, some false] =
      some ⌊(100 * ((([some true, some false].filter (fun r => r.isSome)).filter
          (fun r => r == some true)).length : ℚ)) /
        (([some true, some false].filter (fun r => r.isSome)).length : ℚ)⌋ ∧
    update_correct_rate [some true, some false] = some 50 :=
  ⟨correct_rate_truncation.1 [some true, some false] (by decide), by decide⟩

/-! ## Trend analysis (`analytics._analyze_learning_trends`)

The caller hands the function the student's responses ordered most recent
first; the function takes the first 20, re-sorts them ascending by
submission time (Python's `sorted` is stable — modelled by the stable
`List.insertionSort`), chunks them into consecutive groups of 5 keeping a
batch only when it has at least 3 members, computes each group's correct
rate, and compares the last rate against the first. -/

/-- The slice of a stored response that trend analysis reads. -/
structure ResponseRec where
  submitted_at : ℕ
  is_correct : Option Bool
deriving DecidableEq

/-- The `key=lambda x: x.submitted_at` sort order. -/
def byTime (a b : ResponseRec) : Prop := a.submitted_at ≤ b.submitted_at

instance : DecidableRel byTime := fun a b => Nat.decLe _ _

instance : IsTotal ResponseRec byTime := ⟨fun a b => Nat.le_total _ _⟩

instance : IsTrans ResponseRec byTime := ⟨fun _ _ _ => Nat.le_trans⟩

/-- `sorted(responses[:20], key=lambda x: x.submitted_at)`. -/
def recent_sorted (responses : List ResponseRec) : List ResponseRec :=
  List.insertionSort byTime (responses.take 20)

/-- Fuel-driven chunking: `for i in range(0, len(l), 5): batch = l[i:i+5]`. -/
def chunksOf5Aux {α : Type} : ℕ → List α → List (List α)
  | 0, _ => []
  | _, [] => []
  | fuel + 1, a :: l => ((a :: l).take 5) :: chunksOf5Aux fuel ((a :: l).drop 5)

/-- The consecutive 5-element batches of a list (the last may be shorter). -/
def chunksOf5 {α : Type} (l : List α) : List (List α) := chunksOf5Aux l.length l

/-- One batch's correct rate: `(correct_count / len(batch)) * 100`, a response
counting as correct when `is_correct` is truthy. -/
def group_correct_rate (batch : List ResponseRec) : ℚ :=
  ((batch.countP (fun r => r.is_correct == some true) : ℚ) / (batch.length : ℚ)) * 100

/-- The list of batch rates, keeping only batches with at least 3 members. -/
def correct_rates (l : List ResponseRec) : List ℚ :=
  (chunksOf5 l).filterMap
    (fun batch => if 3 ≤ batch.length then some (group_correct_rate batch) else none)

/-- The three trend labels. -/
inductive Trend where
  | improving
  | declining
  | stable
deriving DecidableEq

/-- The trend determination block: compare the last computed rate against the
first when at least two rates exist. -/
def classify_trend (rates : List ℚ) : Trend :=
  if 2 ≤ rates.length then
    if rates.getLastD 0 > rates.headD 0 + 10 then .improving
    else if rates.getLastD 0 < rates.headD 0 - 10 then .declining
    else .stable
  else .stable

/-- `analytics._analyze_learning_trends` (trend part): insufficient-data
result below 5 responses, otherwise the classified trend along with the
computed group rates. -/
def analyze_learning_trends (responses : List ResponseRec) :
    Option (Trend × List ℚ) :=
  if responses.length < 5 then none
  else
    some (classify_trend (correct_rates (recent_sorted responses)),
      correct_rates (recent_sorted responses))

/-- A response with a known correctness at time `t`. -/
def mkResp (t : ℕ) (c : Bool) : ResponseRec := ⟨t, some c⟩

/-- 10 responses most-recent-first whose time-ascending 5-groups rate 40%
then 80%. -/
def improvingRun : List ResponseRec :=
  [mkResp 9 false, mkResp 8 true, mkResp 7 true, mkResp 6 true, mkResp 5 true,
    mkResp 4 false, mkResp 3 false, mkResp 2 false, mkResp 1 true, mkResp 0 true]

/-- 10 responses most-recent-first whose time-ascending 5-groups rate 80%
then 40%. -/
def decliningRun : List ResponseRec :=
  [mkResp 9 false, mkResp 8 false, mkResp 7 false, mkResp 6 true, mkResp 5 true,
    mkResp 4 false, mkResp 3 true, mkResp 2 true, mkResp 1 true, mkResp 0 true]

/-- 7 responses most-recent-first: the trailing partial group of 2 is
dropped, leaving the single rate 60%. -/
def sevenRun : List ResponseRec :=
  [mkResp 6 true, mkResp 5 false, mkResp 4 true, mkResp 3 false, mkResp 2 false,
    mkResp 1 true, mkResp 0 true]

unseal Rat.add Rat.mul Rat.inv Rat.sub Rat.ofScientific in
/-- C6: trend analysis returns the explicit insufficient-data result for
fewer than 5 responses and otherwise classifies the rates computed from the
first 20 responses re-sorted ascending by submission time (a sorted
permutation of that prefix); with fewer than 2 computed rates the trend is
Stable; 40% → 80% classifies Improving, 80% → 40% Declining, 60% → 55%
Stable, and a difference of exactly 10 points is still Stable; a trailing
group below 3 members contributes no rate. -/
theorem learning_trend_classification :
    (∀ responses : List ResponseRec, responses.length < 5 →
      analyze_learning_trends responses = none) ∧
    (∀ responses : List ResponseRec, 5 ≤ responses.length →
      analyze_learning_trends responses =
        some (classify_trend (correct_rates (recent_sorted responses)),
          correct_rates (recent_sorted responses))) ∧
    (∀ responses : List ResponseRec,
      List.Sorted byTime (recent_sorted responses) ∧
      (recent_sorted responses).Perm (responses.take 20)) ∧
    (∀ rates : List ℚ, rates.length < 2 → classify_trend rates = .stable) ∧
    analyze_learning_trends improvingRun = some (.improving, [40, 80]) ∧
    analyze_learning_trends decliningRun = some (.declining, [80, 40]) ∧
    classify_trend [60, 55] = .stable ∧
    classify_trend [40, 50] = .stable ∧
    analyze_learning_trends sevenRun = some (.stable, [60]) := by
  refine ⟨fun responses h => ?_, fun responses h => ?_,
    fun responses => ⟨List.sorted_insertionSort byTime _,
      List.perm_insertionSort byTime _⟩,
    fun rates h => ?_, by decide, by decide, by decide, by decide, by decide⟩
  · simp [analyze_learning_trends, h]
  · simp [analyze_learning_trends, Nat.not_lt.mpr h]
  · unfold classify_trend
    rw [if_neg (by omega)]

/-- The hypothesis-bearing parts of the trend theorem at concrete inputs: 4
responses are insufficient, 5 yield the single-group result, and a single
rate classifies Stable. -/
theorem learning_trend_classification_witness :
    analyze_learning_trends [mkResp 3 true, mkResp 2 true, mkResp 1 false,
        mkResp 0 false] = none ∧
    analyze_learning_trends sevenRun =
      some (classify_trend (correct_rates (recent_sorted sevenRun)),
        correct_rates (recent_sorted sevenRun)) ∧
    classify_trend [60] = .stable :=
  ⟨learning_trend_classification.1 _ (by decide),
    learning_trend_classification.2.1 sevenRun (by decide),
    learning_trend_classification.2.2.2.1 [60] (by decide)⟩

end QAVerify
